import Mathlib

/-!
Shallow embedding of `src/zad/ind/norm.py`, a DuckDB-backed student-roster
command-line tool.  The embedding models:

* the schema catalog touched by `create_db` (two sequences, two tables,
  all created with `IF NOT EXISTS` semantics);
* the data state (the `groups` and `students` tables plus the two
  sequence counters) and the operations `add_student`, `select_all` and
  `select_by_grade`;
* the display formatter `display_students` (Python `str.format`
  alignment is modelled by explicit padding functions);
* the `argparse`-based command-line front end of `main`, as a function
  from the argument vector to the parse outcome and the list of database
  calls the dispatcher performs.

Machine integers of the source (DuckDB `INTEGER`) are modelled as `Int`;
the tool only ever increments sequence counters, so no overflow wrapping
arises in any claim.
-/

namespace Norm

/-! ## Schema catalog (`create_db`, lines 49–90)

`create_db` runs four `CREATE ... IF NOT EXISTS` statements in order:
sequence `group_st` (start 1), sequence `student_st` (start 1), table
`groups`, table `students`.  The catalog is modelled as a list of named
schema objects; `IF NOT EXISTS` appends the object only when the name is
absent and never errors. -/

inductive ColType where
  | integer
  | text
  | intArray
deriving DecidableEq, Repr

inductive SchemaObj where
  | seq (start : Int)
  | table (cols : List (String × ColType))
deriving DecidableEq, Repr

abbrev Catalog := List (String × SchemaObj)

def hasObj (c : Catalog) (n : String) : Bool :=
  c.any (fun e => e.1 == n)

/-- `CREATE ... IF NOT EXISTS`: add the object unless the name exists. -/
def createIfNotExists (c : Catalog) (n : String) (o : SchemaObj) : Catalog :=
  if hasObj c n then c else c ++ [(n, o)]

/-- Columns of the `groups` table (source lines 68–75). -/
def groupsTable : SchemaObj :=
  .table [("group_id", .integer), ("group_title", .text)]

/-- Columns of the `students` table (source lines 78–88); `student_grade`
is declared `INT[]`. -/
def studentsTable : SchemaObj :=
  .table [("student_id", .integer), ("student_name", .text),
          ("group_id", .integer), ("student_grade", .intArray)]

/-- `create_db` (source lines 49–90): the four idempotent creations, in
source order.  The function is total: `IF NOT EXISTS` never errors. -/
def create_db (c : Catalog) : Catalog :=
  createIfNotExists
    (createIfNotExists
      (createIfNotExists
        (createIfNotExists c "group_st" (.seq 1))
        "student_st" (.seq 1))
      "groups" groupsTable)
    "students" studentsTable

/-- Look a named object up in the catalog. -/
def lookupObj (c : Catalog) (n : String) : Option SchemaObj :=
  (c.find? (fun e => e.1 == n)).map (fun e => e.2)

/-- Type of a named column of a table object. -/
def colTypeOf (o : SchemaObj) (col : String) : Option ColType :=
  match o with
  | .seq _ => none
  | .table cols => (cols.find? (fun e => e.1 == col)).map (fun e => e.2)

/-! ## Data state and operations -/

structure GroupRow where
  group_id : Int
  group_title : String
deriving DecidableEq, Repr

structure StudentRow where
  student_id : Int
  student_name : String
  group_id : Int
  student_grade : List Int
deriving DecidableEq, Repr

/-- The data of one database file: the two tables in insertion order and
the two sequence counters.  A counter holds the value the next
`nextval` returns; `START 1` makes it `1` on a fresh file. -/
structure DB where
  group_st : Int
  student_st : Int
  groups : List GroupRow
  students : List StudentRow
deriving DecidableEq, Repr

/-- The data state of a freshly created database file. -/
def DB.init : DB := ⟨1, 1, [], []⟩

/-- The group lookup-or-create step of `add_student` (source lines
105–128): `SELECT group_id FROM groups WHERE group_title = ?` and
`fetchone`; if no row matches, `INSERT INTO groups VALUES
(nextval('group_st'), ?)` followed by `SELECT currval('group_st')`.
Returns the resolved identifier and the updated state. -/
def resolve_group (db : DB) (group : String) : Int × DB :=
  match (db.groups.filter (fun g => g.group_title == group)).head? with
  | some row => (row.group_id, db)
  | none =>
      (db.group_st,
       { db with groups := db.groups ++ [⟨db.group_st, group⟩],
                 group_st := db.group_st + 1 })

/-- `add_student` (source lines 93–140): resolve or create the group,
then `INSERT INTO students VALUES (nextval('student_st'), ?, ?, ?)`. -/
def add_student (db : DB) (name : String) (group : String)
    (grade : List Int) : DB :=
  let r := resolve_group db group
  { r.2 with
      students := r.2.students ++ [⟨r.2.student_st, name, r.1, grade⟩],
      student_st := r.2.student_st + 1 }

/-- One record of the result shape `{"name", "group", "grade"}`. -/
structure Record where
  name : String
  group : String
  grade : List Int
deriving DecidableEq, Repr

/-- `select_all` (source lines 143–166): inner join of `students` with
`groups` on `group_id`, projected to name, group title and grades. -/
def select_all (db : DB) : List Record :=
  db.students.flatMap (fun s =>
    (db.groups.filter (fun g => g.group_id == s.group_id)).map
      (fun g => ⟨s.student_name, g.group_title, s.student_grade⟩))

/-- `select_by_grade` (source lines 169–198): the same join,
additionally filtered by `WHERE groups.group_title = ?`. -/
def select_by_grade (db : DB) (group : String) : List Record :=
  db.students.flatMap (fun s =>
    (((db.groups.filter (fun g => g.group_id == s.group_id)).filter
        (fun g => g.group_title == group))).map
      (fun g => ⟨s.student_name, g.group_title, s.student_grade⟩))

/-- Number of occurrences of a record in a result list. -/
def countRecord (rs : List Record) (r : Record) : Nat :=
  (rs.filter (fun x => x == r)).length

/-! ## Display formatter (`display_students`, source lines 10–46)

Python `str.format` padding: `{:>w}` pads on the left, `{:<w}` on the
right, `{:^w}` on both sides with the extra space on the right; a value
longer than the width is never truncated.  Lengths count Unicode code
points, as Python's `len` does. -/

def repChar (n : Nat) (c : Char) : String := String.mk (List.replicate n c)

/-- `'{:>w}'.format(s)`. -/
def alignRight (w : Nat) (s : String) : String :=
  if s.length < w then repChar (w - s.length) ' ' ++ s else s

/-- `'{:<w}'.format(s)`. -/
def alignLeft (w : Nat) (s : String) : String :=
  if s.length < w then s ++ repChar (w - s.length) ' ' else s

/-- `'{:^w}'.format(s)`. -/
def alignCenter (w : Nat) (s : String) : String :=
  if s.length < w then
    repChar ((w - s.length) / 2) ' ' ++ s ++
      repChar (w - s.length - (w - s.length) / 2) ' '
  else s

/-- The border line `'+-{}-+-{}-+-{}-+-{}-+'.format('-'*4, '-'*30,
'-'*20, '-'*15)`. -/
def tableBorder : String :=
  "+-" ++ repChar 4 '-' ++ "-+-" ++ repChar 30 '-' ++ "-+-" ++
    repChar 20 '-' ++ "-+-" ++ repChar 15 '-' ++ "-+"

/-- The header line `'| {:^4} | {:^30} | {:^20} | {:^15} |'` applied to
the four column titles. -/
def headerRow : String :=
  "| " ++ alignCenter 4 "№" ++ " | " ++ alignCenter 30 "Ф.И.О." ++
    " | " ++ alignCenter 20 "Группа" ++ " | " ++
    alignCenter 15 "Успеваемость" ++ " |"

/-- `", ".join(map(str, grades))`. -/
def gradeCell (grades : List Int) : String :=
  String.intercalate ", " (grades.map toString)

/-- One data line `'| {:>4} | {:<30} | {:<20} | {:>15} |'` of the
table. -/
def dataRow (idx : Nat) (r : Record) : String :=
  "| " ++ alignRight 4 (toString idx) ++ " | " ++ alignLeft 30 r.name ++
    " | " ++ alignLeft 20 r.group ++ " | " ++
    alignRight 15 (gradeCell r.grade) ++ " |"

/-- `display_students` (source lines 10–46): the table when the list is
non-empty (`enumerate(staff, 1)` supplies the 1-based index), otherwise
the literal empty-roster message. -/
def display_students (staff : List Record) : List String :=
  if staff.isEmpty then ["Список студентов пуст."]
  else
    [tableBorder, headerRow, tableBorder] ++
      (staff.enum.map (fun p => dataRow (p.1 + 1) p.2)) ++ [tableBorder]

/-- Data rows as the spec describes them: each record becomes one row
carrying a 1-based running index right-aligned in width 4, the name
left-aligned in width 30, the group left-aligned in width 20 and the
comma-space-joined grades right-aligned in width 15. -/
def specDataRows : Nat → List Record → List String
  | _, [] => []
  | i, r :: rest =>
      ("| " ++ alignRight 4 (toString i) ++ " | " ++ alignLeft 30 r.name ++
        " | " ++ alignLeft 20 r.group ++ " | " ++
        alignRight 15 (String.intercalate ", " (r.grade.map toString)) ++
        " |") :: specDataRows (i + 1) rest

/-- The display contract stated from the spec's words: the literal
message for an empty roster, otherwise a bordered table whose data rows
are `specDataRows` starting at index 1. -/
def display_students_spec (staff : List Record) : List String :=
  match staff with
  | [] => ["Список студентов пуст."]
  | _ :: _ =>
      [tableBorder, headerRow, tableBorder] ++ specDataRows 1 staff ++
        [tableBorder]

/-! ## Command-line front end (`main`, source lines 201–291)

The argument parser of `main` is modelled for argument vectors in the
separated long/short-flag form the parser defines (`--flag value`
pairs; flag abbreviation and `--flag=value` syntax are not exercised by
any claim and are not modelled).  Python `int()` conversion (used by
`type=int` on `--group`) is modelled over ASCII strings: optional
surrounding whitespace, an optional sign, then decimal digits possibly
separated by single underscores.  A token in value position that starts
with `-` and is not a negative number is treated by `argparse` as an
option, producing an `expected one argument` usage error; `isOptionTok`
models that test (argparse's negative-number matcher `-\d+` or
`-\d*.\d+`). -/

/-- Python whitespace stripped by `int()` (ASCII subset). -/
def pySpace (c : Char) : Bool :=
  c == ' ' || c == '\t' || c == '\n' || c == '\r' || c == '\x0b' || c == '\x0c'

/-- A digit run with optional single underscores between digits, as
accepted by Python's integer literals inside `int()`. -/
def pyDigitRun : List Char → Bool
  | [] => false
  | [c] => c.isDigit
  | c :: '_' :: rest => c.isDigit && pyDigitRun rest
  | c :: rest => c.isDigit && pyDigitRun rest

def digitVal (c : Char) : Nat := c.toNat - '0'.toNat

def digitsToNat (cs : List Char) : Nat :=
  cs.foldl (fun a c => 10 * a + digitVal c) 0

/-- Value of a digit-and-underscore run (underscores removed). -/
def runToNat (cs : List Char) : Nat :=
  digitsToNat (cs.filter (fun c => c ≠ '_'))

/-- Python `int(str)` on ASCII input: strip whitespace, optional sign,
digit run with underscores; `none` models `ValueError`. -/
def pyParseInt (s : String) : Option Int :=
  let cs := (s.data.dropWhile pySpace).reverse.dropWhile pySpace |>.reverse
  match cs with
  | '+' :: rest => if pyDigitRun rest then some (runToNat rest : Int) else none
  | '-' :: rest => if pyDigitRun rest then some (-(runToNat rest : Int)) else none
  | rest => if pyDigitRun rest then some (runToNat rest : Int) else none

/-- argparse's negative-number matcher: `-` then digits, or `-` then
digits, a dot and more digits. -/
def negNumberTok (s : String) : Bool :=
  match s.data with
  | '-' :: rest =>
      (decide (rest ≠ []) && rest.all (fun c => c.isDigit)) ||
      (match rest.dropWhile (fun c => c.isDigit) with
       | '.' :: frac => decide (frac ≠ []) && frac.all (fun c => c.isDigit)
       | _ => false)
  | _ => false

/-- A token that argparse treats as an option rather than as the value
of the preceding flag: starts with `-`, is not the bare `-`, and does
not look like a negative number (this parser has no numeric-looking
option strings). -/
def isOptionTok (s : String) : Bool :=
  match s.data with
  | '-' :: _ :: _ => !negNumberTok s
  | _ => false

/-- A value of the embedded Python/DuckDB value universe, as handed to
the database layer by the dispatcher. -/
inductive DVal where
  | vnull
  | vint (n : Int)
  | vstr (s : String)
  | vlist (l : List Int)
deriving DecidableEq, Repr

/-- The parsed `add` namespace: `--db` (defaulted), required `--name`
and `--grade` (plain strings), optional `--group` (converted by
`type=int`, `None` when absent). -/
structure AddArgs where
  db : String
  name : String
  group : Option Int
  grade : String
deriving DecidableEq, Repr

inductive Cmd where
  | add (a : AddArgs)
  | display (db : String)
  | select (db : String) (sel : String)
deriving DecidableEq, Repr

/-- Outcome of `parser.parse_args`: a usage error (exit code 2), the
`--version` action (prints and exits 0), or a namespace holding the
chosen subcommand (`none` when no subcommand was given). -/
inductive Parsed where
  | usage
  | version
  | ns (cmd : Option Cmd)
deriving DecidableEq, Repr

/-- The `--db` default, `str(Path.cwd() / "students.db")`; the
current-directory prefix is abstracted away. -/
def defaultDb : String := "students.db"

/-- Accumulator for the `add` subparser scan. -/
structure AddAcc where
  db : Option String
  name : Option String
  group : Option Int
  grade : Option String
deriving DecidableEq, Repr

def AddAcc.empty : AddAcc := ⟨none, none, none, none⟩

/-- Scan the `add` subcommand's tokens as flag/value pairs.  An unknown
flag, a flag without a value, an option-like token in value position,
or a `--group` value rejected by `int()` all yield `none` (usage
error).  A repeated flag keeps the last value, as argparse does. -/
def parseAddTokens : List String → AddAcc → Option AddAcc
  | [], acc => some acc
  | [_], _ => none
  | f :: v :: rest, acc =>
      if isOptionTok v then none
      else if f == "--db" then parseAddTokens rest { acc with db := some v }
      else if f == "-n" || f == "--name" then
        parseAddTokens rest { acc with name := some v }
      else if f == "-g" || f == "--group" then
        match pyParseInt v with
        | some k => parseAddTokens rest { acc with group := some k }
        | none => none
      else if f == "-gr" || f == "--grade" then
        parseAddTokens rest { acc with grade := some v }
      else none

/-- Required-argument check and `--db` default for `add`. -/
def finalizeAdd (acc : AddAcc) : Option AddArgs :=
  match acc.name, acc.grade with
  | some n, some gr => some ⟨acc.db.getD defaultDb, n, acc.group, gr⟩
  | _, _ => none

/-- Scan the `display` subcommand's tokens (only `--db`). -/
def parseDisplayTokens : List String → Option String → Option (Option String)
  | [], acc => some acc
  | [_], _ => none
  | f :: v :: rest, _acc =>
      if isOptionTok v then none
      else if f == "--db" then parseDisplayTokens rest (some v)
      else none

/-- Accumulator for the `select` subparser scan. -/
structure SelAcc where
  db : Option String
  sel : Option String
deriving DecidableEq, Repr

/-- Scan the `select` subcommand's tokens (`--db`, required
`-s`/`--select`). -/
def parseSelectTokens : List String → SelAcc → Option SelAcc
  | [], acc => some acc
  | [_], _ => none
  | f :: v :: rest, acc =>
      if isOptionTok v then none
      else if f == "--db" then parseSelectTokens rest { acc with db := some v }
      else if f == "-s" || f == "--select" then
        parseSelectTokens rest { acc with sel := some v }
      else none

/-- The command-line parser built in `main` (source lines 201–273):
subcommands `add`, `display`, `select`, the `--version` action, and a
namespace without a `db` attribute when no subcommand is given. -/
def parseArgs : List String → Parsed
  | [] => .ns none
  | "--version" :: _ => .version
  | "add" :: rest =>
      match (parseAddTokens rest AddAcc.empty).bind finalizeAdd with
      | some a => .ns (some (.add a))
      | none => .usage
  | "display" :: rest =>
      match parseDisplayTokens rest none with
      | some db => .ns (some (.display (db.getD defaultDb)))
      | none => .usage
  | "select" :: rest =>
      match parseSelectTokens rest ⟨none, none⟩ with
      | some acc =>
          match acc.sel with
          | some s => .ns (some (.select (acc.db.getD defaultDb) s))
          | none => .usage
      | none => .usage
  | _ => .usage

/-- One database-layer call performed by the dispatcher, with the
argument values exactly as Python hands them over (`args.grade` is a
plain string; `args.group` is an `int` or `None`). -/
inductive DbCall where
  | createDb (path : String)
  | addStudent (path : String) (name : DVal) (group : DVal) (grade : DVal)
  | displayAll (path : String)
  | selectBy (path : String) (sel : DVal)
deriving DecidableEq, Repr

/-- Result of one `main` invocation: usage error (exit 2), `--version`
(exit 0), an uncaught `AttributeError` (nonzero exit with a traceback),
or normal completion (exit 0) with the database calls performed, in
order. -/
inductive MainResult where
  | usageExit
  | versionExit
  | attributeError
  | completed (calls : List DbCall)
deriving DecidableEq, Repr

/-- Process exit code of a `main` outcome (argparse uses 2 for usage
errors; an uncaught exception exits 1). -/
def exitCode : MainResult → Nat
  | .usageExit => 2
  | .versionExit => 0
  | .attributeError => 1
  | .completed _ => 0

/-- Database calls of the dispatch on a parsed subcommand (source lines
281–291). -/
def dispatchCalls : Cmd → List DbCall
  | .add a =>
      [.addStudent a.db (.vstr a.name)
        (match a.group with | some k => .vint k | none => .vnull)
        (.vstr a.grade)]
  | .display db => [.displayAll db]
  | .select db s => [.selectBy db (.vstr s)]

/-- `main` (source lines 201–291): parse the argument vector; on a
namespace, read `args.db` — which raises `AttributeError` when no
subcommand was chosen, since `--db` is declared only on the subparsers
— then call `create_db` and dispatch on the subcommand. -/
def main (argv : List String) : MainResult :=
  match parseArgs argv with
  | .usage => .usageExit
  | .version => .versionExit
  | .ns none => .attributeError
  | .ns (some c) =>
      let db := match c with
        | .add a => a.db
        | .display d => d
        | .select d _ => d
      .completed (.createDb db :: dispatchCalls c)

/-- The database calls of a completed run (empty for every abnormal
outcome). -/
def callsOf (r : MainResult) : List DbCall :=
  match r with
  | .completed calls => calls
  | _ => []

/-- The grade argument of the `addStudent` call of a completed run, if
any. -/
def gradeArgOf (r : MainResult) : Option DVal :=
  match r with
  | .completed calls =>
      calls.findSome? (fun c =>
        match c with
        | .addStudent _ _ _ g => some g
        | _ => none)
  | _ => none

/-- The group argument of the `addStudent` call of a completed run, if
any. -/
def groupArgOf (r : MainResult) : Option DVal :=
  match r with
  | .completed calls =>
      calls.findSome? (fun c =>
        match c with
        | .addStudent _ _ g _ => some g
        | _ => none)
  | _ => none

/-- Whether a value of the embedded value universe is a list. -/
def DVal.isListVal : DVal → Bool
  | .vlist _ => true
  | _ => false

/-! ## Reachable states and well-formedness -/

/-- States reachable through the program's operations: the fresh file
produced by `create_db`, then any number of `add_student` calls (the
two `select` operations and repeated `create_db` calls do not change
the data state). -/
inductive Reachable : DB → Prop where
  | init : Reachable DB.init
  | step (db : DB) (name group : String) (grade : List Int) :
      Reachable db → Reachable (add_student db name group grade)

/-- Structural well-formedness maintained by the operations: group
identifiers are distinct and below the sequence counter, and every
student references an existing group row. -/
def WF (db : DB) : Prop :=
  (db.groups.map (fun g => g.group_id)).Nodup ∧
  (∀ g ∈ db.groups, g.group_id < db.group_st) ∧
  (∀ s ∈ db.students, ∃ g ∈ db.groups, g.group_id = s.group_id)

instance (db : DB) : Decidable (WF db) := by
  unfold WF; infer_instance

end Norm

/-! ### First theorems: schema idempotence -/

namespace Norm

theorem hasObj_createIfNotExists_self (c : Catalog) (n : String)
    (o : SchemaObj) : hasObj (createIfNotExists c n o) n = true := by
  unfold createIfNotExists
  by_cases h : hasObj c n
  · rw [if_pos h]; exact h
  · rw [if_neg h]
    unfold hasObj
    rw [List.any_append]
    simp

theorem hasObj_createIfNotExists_mono (c : Catalog) (n m : String)
    (o : SchemaObj) (h : hasObj c m = true) :
    hasObj (createIfNotExists c n o) m = true := by
  unfold createIfNotExists
  by_cases hn : hasObj c n
  · rw [if_pos hn]; exact h
  · rw [if_neg hn]
    unfold hasObj at h ⊢
    rw [List.any_append, h, Bool.true_or]

theorem createIfNotExists_of_hasObj (c : Catalog) (n : String)
    (o : SchemaObj) (h : hasObj c n = true) :
    createIfNotExists c n o = c := by
  simp [createIfNotExists, h]

theorem create_db_of_all_present (c : Catalog)
    (h1 : hasObj c "group_st" = true) (h2 : hasObj c "student_st" = true)
    (h3 : hasObj c "groups" = true) (h4 : hasObj c "students" = true) :
    create_db c = c := by
  unfold create_db
  rw [createIfNotExists_of_hasObj _ _ _ h1,
      createIfNotExists_of_hasObj _ _ _ h2,
      createIfNotExists_of_hasObj _ _ _ h3,
      createIfNotExists_of_hasObj _ _ _ h4]

theorem hasObj_create_db (c : Catalog) :
    hasObj (create_db c) "group_st" = true ∧
    hasObj (create_db c) "student_st" = true ∧
    hasObj (create_db c) "groups" = true ∧
    hasObj (create_db c) "students" = true := by
  unfold create_db
  refine ⟨?_, ?_, ?_, ?_⟩
  · exact hasObj_createIfNotExists_mono _ _ _ _
      (hasObj_createIfNotExists_mono _ _ _ _
        (hasObj_createIfNotExists_mono _ _ _ _
          (hasObj_createIfNotExists_self _ _ _)))
  · exact hasObj_createIfNotExists_mono _ _ _ _
      (hasObj_createIfNotExists_mono _ _ _ _
        (hasObj_createIfNotExists_self _ _ _))
  · exact hasObj_createIfNotExists_mono _ _ _ _
      (hasObj_createIfNotExists_self _ _ _)
  · exact hasObj_createIfNotExists_self _ _ _

/-- C9: the schema initializer `create_db` is idempotent: running it a
second time on the same catalog changes nothing (every `CREATE ... IF
NOT EXISTS` finds its object already present), and it is a total
function, so the second run raises no error; tables and sequences after
two calls are identical to those after one call. -/
theorem create_db_idempotent (c : Catalog) :
    create_db (create_db c) = create_db c :=
  create_db_of_all_present _ (hasObj_create_db c).1 (hasObj_create_db c).2.1
    (hasObj_create_db c).2.2.1 (hasObj_create_db c).2.2.2

/-! ### List helpers -/

theorem mem_of_head_some {α : Type} {l : List α} {a : α}
    (h : l.head? = some a) : a ∈ l := by
  cases l with
  | nil => simp at h
  | cons b t =>
      simp only [List.head?_cons, Option.some.injEq] at h
      subst h
      exact List.mem_cons_self _ _

theorem flatMap_filter_comm {α β : Type} (l : List α) (f : α → List β)
    (q : β → Bool) :
    (l.flatMap f).filter q = l.flatMap (fun a => (f a).filter q) := by
  induction l with
  | nil => rfl
  | cons a t ih => simp [List.flatMap_cons, List.filter_append, ih]

theorem map_filter_comm {α β : Type} (l : List α) (f : α → β)
    (q : β → Bool) :
    (l.map f).filter q = (l.filter (fun a => q (f a))).map f := by
  induction l with
  | nil => rfl
  | cons a t ih =>
      by_cases h : q (f a) = true
      · simp [h, ih]
      · simp only [List.map_cons, List.filter_cons]
        rw [if_neg (by simpa using h), if_neg (by simpa using h), ih]

theorem flatMap_congr_mem {α β : Type} {l : List α} {f g : α → List β}
    (h : ∀ a ∈ l, f a = g a) : l.flatMap f = l.flatMap g := by
  induction l with
  | nil => rfl
  | cons a t ih =>
      simp only [List.flatMap_cons]
      rw [h a (List.mem_cons_self _ _),
          ih (fun b hb => h b (List.mem_cons_of_mem _ hb))]

/-- With pairwise distinct group identifiers, filtering by the
identifier of a member row yields exactly that row. -/
theorem filter_by_id_of_nodup (l : List GroupRow) (row : GroupRow)
    (hnd : (l.map (fun g => g.group_id)).Nodup) (hmem : row ∈ l) :
    l.filter (fun g => g.group_id == row.group_id) = [row] := by
  induction l with
  | nil => simp at hmem
  | cons a t ih =>
      rw [List.map_cons, List.nodup_cons] at hnd
      rcases List.mem_cons.mp hmem with h | h
      · subst h
        have ht : t.filter (fun g => g.group_id == row.group_id) = [] := by
          refine List.filter_eq_nil_iff.mpr (fun g hg => ?_)
          simp only [beq_iff_eq]
          intro hEq
          exact hnd.1 (hEq ▸ List.mem_map_of_mem _ hg)
        simp [List.filter_cons, ht]
      · have hne : (a.group_id == row.group_id) = false := by
          simp only [beq_eq_false_iff_ne, ne_eq]
          intro hEq
          exact hnd.1 (hEq ▸ List.mem_map_of_mem _ h)
        rw [List.filter_cons, if_neg (by simp [hne]), ih hnd.2 h]

/-! ### Group resolution (`resolve_group`) -/

theorem resolve_group_found (db : DB) (group : String) (row : GroupRow)
    (h : (db.groups.filter (fun g => g.group_title == group)).head?
          = some row) :
    resolve_group db group = (row.group_id, db) := by
  unfold resolve_group
  rw [h]

theorem resolve_group_new (db : DB) (group : String)
    (h : (db.groups.filter (fun g => g.group_title == group)).head?
          = none) :
    resolve_group db group =
      (db.group_st,
       { db with groups := db.groups ++ [⟨db.group_st, group⟩],
                 group_st := db.group_st + 1 }) := by
  unfold resolve_group
  rw [h]

theorem add_student_found (db : DB) (name group : String)
    (grade : List Int) (row : GroupRow)
    (h : (db.groups.filter (fun g => g.group_title == group)).head?
          = some row) :
    add_student db name group grade =
      { db with
          students := db.students ++ [⟨db.student_st, name, row.group_id, grade⟩],
          student_st := db.student_st + 1 } := by
  simp [add_student, resolve_group_found db group row h]

theorem add_student_new (db : DB) (name group : String) (grade : List Int)
    (h : (db.groups.filter (fun g => g.group_title == group)).head?
          = none) :
    add_student db name group grade =
      ⟨db.group_st + 1, db.student_st + 1,
       db.groups ++ [⟨db.group_st, group⟩],
       db.students ++ [⟨db.student_st, name, db.group_st, grade⟩]⟩ := by
  simp [add_student, resolve_group_new db group h]

/-! ### Preservation of well-formedness -/

theorem wf_add (db : DB) (name group : String) (grade : List Int)
    (h : WF db) : WF (add_student db name group grade) := by
  obtain ⟨h1, h2, h3⟩ := h
  cases hh : (db.groups.filter (fun g => g.group_title == group)).head? with
  | some row =>
      have hrmem : row ∈ db.groups :=
        (List.mem_filter.mp (mem_of_head_some hh)).1
      rw [add_student_found db name group grade row hh]
      refine ⟨h1, h2, ?_⟩
      intro s hs
      rcases List.mem_append.mp hs with hs | hs
      · exact h3 s hs
      · simp only [List.mem_singleton] at hs
        subst hs
        exact ⟨row, hrmem, rfl⟩
  | none =>
      rw [add_student_new db name group grade hh]
      refine ⟨?_, ?_, ?_⟩
      · rw [List.map_append]
        simp only [List.map_cons, List.map_nil]
        rw [List.nodup_append]
        refine ⟨h1, List.nodup_singleton _, ?_⟩
        intro a ha hb
        simp only [List.mem_singleton] at hb
        subst hb
        obtain ⟨g, hg, hga⟩ := List.mem_map.mp ha
        exact absurd hga (ne_of_lt (h2 g hg))
      · intro g hg
        rcases List.mem_append.mp hg with hg | hg
        · exact lt_trans (h2 g hg) (lt_add_one _)
        · simp only [List.mem_singleton] at hg
          subst hg
          exact lt_add_one _
      · intro s hs
        rcases List.mem_append.mp hs with hs | hs
        · obtain ⟨g, hgmem, hgid⟩ := h3 s hs
          exact ⟨g, List.mem_append_left _ hgmem, hgid⟩
        · simp only [List.mem_singleton] at hs
          subst hs
          exact ⟨⟨db.group_st, group⟩,
                 List.mem_append_right _ (List.mem_singleton.mpr rfl), rfl⟩

theorem reachable_wf {db : DB} (h : Reachable db) : WF db := by
  induction h with
  | init =>
      refine ⟨?_, ?_, ?_⟩ <;> simp [DB.init]
  | step db name group grade _hr ih => exact wf_add db name group grade ih

/-! ### `select_all` after `add_student` -/

theorem select_all_add (db : DB) (name group : String) (grade : List Int)
    (h : WF db) :
    select_all (add_student db name group grade) =
      select_all db ++ [⟨name, group, grade⟩] := by
  obtain ⟨h1, h2, h3⟩ := h
  cases hh : (db.groups.filter (fun g => g.group_title == group)).head? with
  | some row =>
      have hrow := List.mem_filter.mp (mem_of_head_some hh)
      have hrtitle : row.group_title = group := by simpa using hrow.2
      rw [add_student_found db name group grade row hh]
      unfold select_all
      rw [List.flatMap_append]
      congr 1
      simp only [List.flatMap_cons, List.flatMap_nil, List.append_nil]
      rw [filter_by_id_of_nodup db.groups row h1 hrow.1]
      simp [hrtitle]
  | none =>
      have hfilnil : db.groups.filter (fun g => g.group_title == group) = [] :=
        List.head?_eq_none_iff.mp hh
      rw [add_student_new db name group grade hh]
      unfold select_all
      rw [List.flatMap_append]
      congr 1
      · refine flatMap_congr_mem (fun s hs => ?_)
        rw [List.filter_append]
        have hnew : ([⟨db.group_st, group⟩] : List GroupRow).filter
            (fun g => g.group_id == s.group_id) = [] := by
          obtain ⟨g0, hg0, hgid⟩ := h3 s hs
          have hlt := h2 g0 hg0
          simp only [List.filter_cons, List.filter_nil]
          rw [if_neg]
          simp only [beq_iff_eq]
          omega
        rw [hnew, List.append_nil]
      · simp only [List.flatMap_cons, List.flatMap_nil, List.append_nil]
        rw [List.filter_append]
        have hold : db.groups.filter
            (fun g => g.group_id == (db.group_st : Int)) = [] := by
          refine List.filter_eq_nil_iff.mpr (fun g hg => ?_)
          have hlt := h2 g hg
          simp only [beq_iff_eq]
          omega
        rw [hold, List.nil_append]
        simp

theorem countRecord_append (rs : List Record) (r0 r : Record) :
    countRecord (rs ++ [r0]) r =
      countRecord rs r + (if r0 = r then 1 else 0) := by
  unfold countRecord
  rw [List.filter_append, List.length_append]
  congr 1
  by_cases h : r0 = r
  · simp [h]
  · simp [h]

/-! ### Claim theorems -/

/-- C1: the group resolver returns the identifier of the existing group
row whose title exactly equals the input when one exists (leaving the
groups table unchanged); otherwise it allocates the next sequence
value, inserts a new group row with that identifier and title, and
returns the new identifier.  Consequently, adding two students with the
same (previously absent) group title yields exactly one group row with
that title, and both inserted student rows reference its identifier. -/
theorem add_student_group_resolution (db : DB) (n₁ n₂ title : String)
    (g₁ g₂ : List Int) :
    (∀ row : GroupRow,
        (db.groups.filter (fun g => g.group_title == title)).head?
            = some row →
        row ∈ db.groups ∧ row.group_title = title ∧
        resolve_group db title = (row.group_id, db)) ∧
    ((db.groups.filter (fun g => g.group_title == title)).head? = none →
        resolve_group db title =
          (db.group_st,
           { db with groups := db.groups ++ [⟨db.group_st, title⟩],
                     group_st := db.group_st + 1 })) ∧
    ((∀ g ∈ db.groups, g.group_title ≠ title) →
        (add_student (add_student db n₁ title g₁) n₂ title g₂).groups
            = db.groups ++ [⟨db.group_st, title⟩] ∧
        ((add_student (add_student db n₁ title g₁) n₂ title g₂).groups.filter
            (fun g => g.group_title == title)).length = 1 ∧
        (add_student (add_student db n₁ title g₁) n₂ title g₂).students
            = db.students ++
                [⟨db.student_st, n₁, db.group_st, g₁⟩,
                 ⟨db.student_st + 1, n₂, db.group_st, g₂⟩]) := by
  refine ⟨?_, ?_, ?_⟩
  · intro row h
    have hrow := List.mem_filter.mp (mem_of_head_some h)
    exact ⟨hrow.1, by simpa using hrow.2, resolve_group_found db title row h⟩
  · intro h
    exact resolve_group_new db title h
  · intro h
    have hfilnil : db.groups.filter (fun g => g.group_title == title) = [] :=
      List.filter_eq_nil_iff.mpr (fun g hg => by simpa using h g hg)
    have hnone : (db.groups.filter
        (fun g => g.group_title == title)).head? = none := by
      rw [hfilnil]; rfl
    have e₁ := add_student_new db n₁ title g₁ hnone
    have hfil₂ : (add_student db n₁ title g₁).groups.filter
        (fun g => g.group_title == title) = [⟨db.group_st, title⟩] := by
      rw [e₁]
      simp only [List.filter_append, hfilnil, List.nil_append]
      simp
    have hsome : ((add_student db n₁ title g₁).groups.filter
        (fun g => g.group_title == title)).head?
          = some ⟨db.group_st, title⟩ := by
      rw [hfil₂]; rfl
    have e₂ := add_student_found (add_student db n₁ title g₁) n₂ title g₂
      ⟨db.group_st, title⟩ hsome
    refine ⟨?_, ?_, ?_⟩
    · rw [e₂]
      show (add_student db n₁ title g₁).groups = _
      rw [e₁]
    · rw [e₂]
      show ((add_student db n₁ title g₁).groups.filter
          (fun g => g.group_title == title)).length = 1
      rw [hfil₂]
      rfl
    · rw [e₂]
      show (add_student db n₁ title g₁).students ++ _ = _
      rw [e₁]
      show (db.students ++ _) ++ _ = _
      rw [List.append_assoc]
      rfl

/-- C1 witness: on a database already holding group "IS-21" the
resolver returns its identifier without touching the table; on a fresh
database it allocates identifier 1, and two `add_student` calls with
group title "IS-21" create exactly one group row, referenced by both
student rows. -/
theorem add_student_group_resolution_witness :
    resolve_group ⟨2, 1, [⟨1, "IS-21"⟩], []⟩ "IS-21"
      = (1, ⟨2, 1, [⟨1, "IS-21"⟩], []⟩) ∧
    resolve_group DB.init "IS-21"
      = (1, { DB.init with groups := [⟨1, "IS-21"⟩], group_st := 2 }) ∧
    (add_student (add_student DB.init "Ivanov" "IS-21" [4, 5])
        "Petrov" "IS-21" [3]).groups = [⟨1, "IS-21"⟩] ∧
    (add_student (add_student DB.init "Ivanov" "IS-21" [4, 5])
        "Petrov" "IS-21" [3]).students
      = [⟨1, "Ivanov", 1, [4, 5]⟩, ⟨2, "Petrov", 1, [3]⟩] := by
  have hfound := (add_student_group_resolution ⟨2, 1, [⟨1, "IS-21"⟩], []⟩
    "Ivanov" "Petrov" "IS-21" [4, 5] [3]).1 ⟨1, "IS-21"⟩ (by decide)
  have hnew := (add_student_group_resolution DB.init "Ivanov" "Petrov"
    "IS-21" [4, 5] [3]).2.1 (by decide)
  have h := (add_student_group_resolution DB.init "Ivanov" "Petrov" "IS-21"
    [4, 5] [3]).2.2 (by decide)
  exact ⟨hfound.2.2, hnew, h.1, h.2.2⟩

/-- C2: from any reachable state, after `add_student` the result of
`select_all` contains exactly one more record with the given name,
group title and grades than before, and the count of every other
record is unchanged (so all previously present records are still
present). -/
theorem add_student_select_all_count (db : DB) (name group : String)
    (grade : List Int) (h : Reachable db) :
    countRecord (select_all (add_student db name group grade))
        ⟨name, group, grade⟩
      = countRecord (select_all db) ⟨name, group, grade⟩ + 1 ∧
    ∀ r : Record, r ≠ ⟨name, group, grade⟩ →
      countRecord (select_all (add_student db name group grade)) r
        = countRecord (select_all db) r := by
  have hwf := reachable_wf h
  constructor
  · rw [select_all_add db name group grade hwf, countRecord_append]
    simp
  · intro r hr
    rw [select_all_add db name group grade hwf, countRecord_append,
        if_neg (fun hEq => hr hEq.symm), Nat.add_zero]

/-- C2 witness at a concrete reachable state. -/
theorem add_student_select_all_count_witness :
    countRecord (select_all (add_student DB.init "Ivanov" "IS-21" [4, 5]))
        ⟨"Ivanov", "IS-21", [4, 5]⟩
      = countRecord (select_all DB.init) ⟨"Ivanov", "IS-21", [4, 5]⟩ + 1 :=
  (add_student_select_all_count DB.init "Ivanov" "IS-21" [4, 5]
    Reachable.init).1

/-- C3: `select_by_grade` returns exactly the records of `select_all`
whose group title equals the parameter under exact string equality —
every returned record's group equals the parameter and every stored
student whose group title equals the parameter is returned, with
multiplicity. -/
theorem select_by_grade_eq_filter_select_all (db : DB) (param : String) :
    select_by_grade db param =
      (select_all db).filter (fun r => r.group == param) := by
  unfold select_by_grade select_all
  rw [flatMap_filter_comm]
  refine flatMap_congr_mem (fun s _ => ?_)
  rw [map_filter_comm]

/-- C5: the display formatter renders the empty roster as exactly the
literal message (and no table), and a non-empty roster as the bordered
table whose data rows carry the 1-based index right-aligned in width 4,
the name left-aligned in width 30, the group left-aligned in width 20,
and the comma-space-joined grades right-aligned in width 15. -/
theorem display_students_correct (staff : List Record) :
    display_students staff = display_students_spec staff ∧
    display_students [] = ["Список студентов пуст."] := by
  constructor
  · have henum : ∀ (l : List Record) (k : Nat),
        (l.enumFrom k).map (fun p => dataRow (p.1 + 1) p.2)
          = specDataRows (k + 1) l := by
      intro l
      induction l with
      | nil => intro k; rfl
      | cons r t ih =>
          intro k
          simp only [List.enumFrom, List.map_cons, specDataRows]
          rw [ih (k + 1)]
          rfl
    cases staff with
    | nil => rfl
    | cons r t =>
        unfold display_students display_students_spec
        rw [List.isEmpty_cons]
        simp only [Bool.false_eq_true, if_false]
        rw [show (r :: t).enum = (r :: t).enumFrom 0 from rfl, henum]
  · rfl

/-- C7: in every state reachable through the program's operations,
every student row's `group_id` references an existing group row; in
particular one more `add_student` from a reachable state again leaves
every student — including the newly inserted one — referencing an
existing group row, because the resolver creates the group before the
student is inserted. -/
theorem reachable_foreign_key_invariant (db : DB) (h : Reachable db) :
    (∀ s ∈ db.students, ∃ g ∈ db.groups, g.group_id = s.group_id) ∧
    ∀ (name group : String) (grade : List Int),
      ∀ s ∈ (add_student db name group grade).students,
        ∃ g ∈ (add_student db name group grade).groups,
          g.group_id = s.group_id :=
  ⟨(reachable_wf h).2.2,
   fun name group grade =>
     (reachable_wf (Reachable.step db name group grade h)).2.2⟩

/-- C7 witness: the student inserted into a fresh database references
an existing group row. -/
theorem reachable_foreign_key_invariant_witness :
    ∃ g ∈ (add_student DB.init "Ivanov" "IS-21" [4, 5]).groups,
      g.group_id = (⟨1, "Ivanov", 1, [4, 5]⟩ : StudentRow).group_id :=
  (reachable_foreign_key_invariant DB.init Reachable.init).2
    "Ivanov" "IS-21" [4, 5] ⟨1, "Ivanov", 1, [4, 5]⟩ (by decide)

/-- C4: evaluating `main` at the failing input — no subcommand — the
parse succeeds with `command = None`, but the namespace has no `db`
attribute (`--db` is declared only on the subparsers), so `Path(args.db)`
raises an uncaught `AttributeError`: no database call happens (in
particular the schema is not created) and the process exits with a
nonzero code, not 0. -/
theorem main_no_subcommand_attribute_error :
    main [] = MainResult.attributeError ∧
    exitCode (main []) = 1 ∧
    callsOf (main []) = [] :=
  ⟨rfl, rfl, rfl⟩

/-- C6 counterexample: omitting `--group` from `add` is accepted — the
argument is not marked `required` — and the invocation proceeds to the
database operations instead of being rejected. -/
theorem add_without_group_accepted :
    main ["add", "--name", "Ivanov", "--grade", "[4, 5]"] =
      MainResult.completed
        [DbCall.createDb defaultDb,
         DbCall.addStudent defaultDb (DVal.vstr "Ivanov") DVal.vnull
           (DVal.vstr "[4, 5]")] :=
  rfl

/-- C6 amended: omitting `--name` or `--grade` makes the parser reject
the `add` invocation with a usage error and exit code 2 before any
database operation, but `--group` is optional: omitting it is accepted
and `None` is passed on. -/
theorem add_missing_required_args (n g gr : String) :
    main ["add", "--group", g, "--grade", gr] = MainResult.usageExit ∧
    main ["add", "--name", n, "--group", g] = MainResult.usageExit ∧
    (isOptionTok n = false → isOptionTok gr = false →
      main ["add", "--name", n, "--grade", gr] =
        MainResult.completed
          [DbCall.createDb defaultDb,
           DbCall.addStudent defaultDb (DVal.vstr n) DVal.vnull
             (DVal.vstr gr)]) := by
  refine ⟨?_, ?_, ?_⟩
  · by_cases h1 : isOptionTok g
    · simp [main, parseArgs, parseAddTokens, AddAcc.empty, h1]
    · cases hp : pyParseInt g with
      | none =>
          simp [main, parseArgs, parseAddTokens, AddAcc.empty, h1, hp]
      | some k =>
          by_cases h2 : isOptionTok gr
          · simp [main, parseArgs, parseAddTokens, AddAcc.empty, h1, hp, h2]
          · simp [main, parseArgs, parseAddTokens, finalizeAdd,
                  AddAcc.empty, h1, hp, h2]
  · by_cases h1 : isOptionTok n
    · simp [main, parseArgs, parseAddTokens, AddAcc.empty, h1]
    · by_cases h2 : isOptionTok g
      · simp [main, parseArgs, parseAddTokens, AddAcc.empty, h1, h2]
      · cases hp : pyParseInt g with
        | none =>
            simp [main, parseArgs, parseAddTokens, AddAcc.empty, h1, h2, hp]
        | some k =>
            simp [main, parseArgs, parseAddTokens, finalizeAdd,
                  AddAcc.empty, h1, h2, hp]
  · intro h1 h2
    simp [main, parseArgs, parseAddTokens, finalizeAdd, AddAcc.empty,
          dispatchCalls, h1, h2, defaultDb]

/-- C6 witness: concrete rejected and accepted invocations. -/
theorem add_missing_required_args_witness :
    main ["add", "--group", "1", "--grade", "[4]"] = MainResult.usageExit ∧
    main ["add", "--name", "Ivanov", "--group", "1"] =
      MainResult.usageExit ∧
    main ["add", "--name", "Ivanov", "--grade", "[4]"] =
      MainResult.completed
        [DbCall.createDb defaultDb,
         DbCall.addStudent defaultDb (DVal.vstr "Ivanov") DVal.vnull
           (DVal.vstr "[4]")] :=
  ⟨(add_missing_required_args "Ivanov" "1" "[4]").1,
   (add_missing_required_args "Ivanov" "1" "[4]").2.1,
   (add_missing_required_args "Ivanov" "1" "[4]").2.2 (by decide) (by decide)⟩

/-- C8 counterexample: the grade value handed to the student inserter
by the `add` dispatch is the raw string `"4, 5"`, not a list value. -/
theorem grade_handed_as_string_counterexample :
    gradeArgOf
        (main ["add", "--name", "Ivanov", "--group", "1",
               "--grade", "4, 5"])
      = some (DVal.vstr "4, 5") ∧
    DVal.isListVal (DVal.vstr "4, 5") = false :=
  ⟨rfl, rfl⟩

/-- C8 amended: the grade handed to the student inserter is the raw
`--grade` command-line string — the program never builds a list from it
— while the `student_grade` column of the schema is declared `INT[]`,
so the value is stored as an integer array only through the database's
own cast of that string. -/
theorem grade_raw_string_int_array_column (n g gr : String) (k : Int) :
    (pyParseInt g = some k → isOptionTok g = false →
      isOptionTok n = false → isOptionTok gr = false →
      gradeArgOf (main ["add", "--name", n, "--group", g, "--grade", gr])
        = some (DVal.vstr gr)) ∧
    lookupObj (create_db []) "students" = some studentsTable ∧
    colTypeOf studentsTable "student_grade" = some ColType.intArray := by
  refine ⟨?_, rfl, rfl⟩
  intro hp h1 h2 h3
  simp [main, parseArgs, parseAddTokens, finalizeAdd, AddAcc.empty,
        dispatchCalls, gradeArgOf, h1, h2, h3, hp, List.findSome?]

/-- C8 witness: a concrete `add` run hands the raw grade string on. -/
theorem grade_raw_string_int_array_column_witness :
    gradeArgOf
        (main ["add", "--name", "Ivanov", "--group", "1",
               "--grade", "[4, 5]"])
      = some (DVal.vstr "[4, 5]") ∧
    colTypeOf studentsTable "student_grade" = some ColType.intArray :=
  ⟨(grade_raw_string_int_array_column "Ivanov" "1" "[4, 5]" 1).1
      (by decide) (by decide) (by decide) (by decide),
   (grade_raw_string_int_array_column "Ivanov" "1" "[4, 5]" 1).2.2⟩

/-- C10: `--group` is converted by the parser's `type=int`: a value
`int()` rejects (such as "IS-21") yields a usage error and exit before
any database operation; an accepted value is handed to `add_student` —
whose `WHERE group_title = ?` lookup compares it against the textual
`group_title` column — as exactly that integer, and as `None` when
`--group` is omitted. -/
theorem group_type_int_conversion (n g gr : String) :
    (pyParseInt g = none →
      main ["add", "--name", n, "--group", g, "--grade", gr]
        = MainResult.usageExit) ∧
    (∀ k : Int, pyParseInt g = some k → isOptionTok g = false →
      isOptionTok n = false → isOptionTok gr = false →
      main ["add", "--name", n, "--group", g, "--grade", gr]
        = MainResult.completed
            [DbCall.createDb defaultDb,
             DbCall.addStudent defaultDb (DVal.vstr n) (DVal.vint k)
               (DVal.vstr gr)]) ∧
    (isOptionTok n = false → isOptionTok gr = false →
      groupArgOf (main ["add", "--name", n, "--grade", gr])
        = some DVal.vnull) := by
  refine ⟨?_, ?_, ?_⟩
  · intro hp
    by_cases h1 : isOptionTok n
    · simp [main, parseArgs, parseAddTokens, AddAcc.empty, h1]
    · by_cases h2 : isOptionTok g
      · simp [main, parseArgs, parseAddTokens, AddAcc.empty, h1, h2]
      · simp [main, parseArgs, parseAddTokens, AddAcc.empty, h1, h2, hp]
  · intro k hp h1 h2 h3
    simp [main, parseArgs, parseAddTokens, finalizeAdd, AddAcc.empty,
          dispatchCalls, h1, h2, h3, hp]
  · intro h1 h2
    simp [main, parseArgs, parseAddTokens, finalizeAdd, AddAcc.empty,
          dispatchCalls, groupArgOf, h1, h2, List.findSome?]

/-- C10 witness: "IS-21" is rejected before any database call; "5" is
accepted and handed on as the integer 5. -/
theorem group_type_int_conversion_witness :
    main ["add", "--name", "Ivanov", "--group", "IS-21",
          "--grade", "[4]"] = MainResult.usageExit ∧
    main ["add", "--name", "Ivanov", "--group", "5",
          "--grade", "[4]"] =
      MainResult.completed
        [DbCall.createDb defaultDb,
         DbCall.addStudent defaultDb (DVal.vstr "Ivanov") (DVal.vint 5)
           (DVal.vstr "[4]")] :=
  ⟨(group_type_int_conversion "Ivanov" "IS-21" "[4]").1 (by decide),
   (group_type_int_conversion "Ivanov" "5" "[4]").2.1 5 (by decide)
     (by decide) (by decide) (by decide)⟩

end Norm
